import Mathlib

/-!
# oxygen-go: the HTTP client of the Oxygen storage service

A shallow embedding of `http.go`, `oxygen-go.go` and `codes.go`.

* Go `int64` values are integers; arithmetic that can overflow is wrapped
  with `wrapInt64`.
* An `io.Reader` is a `Stream`: the bytes it yields and the error that ends
  it (`none` is `io.EOF`).  A nil reader is `none : Option _`.
* What the client cannot influence is a parameter: whether `http.NewRequest`
  rejects a URL and what `json.Unmarshal` decodes are fields of `GoLib`, the
  transport (`client.client.Do`) is a field of `HttpClient`.
* `strconv`, `fmt.Sprintf`, the string encoding of `encoding/json` and the
  way `http.NewRequest` reads back `url.String()` are modelled after the Go
  standard library, on strings of valid UTF-8.
* Effects are recorded in a `Trace`: every call of the transport and every
  `Close` of a body owned by the transport.
* A run-time panic (a method call on a nil reader or a nil response) is
  `Run.panic`; an operation returns its `Run` together with the trace.
* `Logf` only prints to standard output; printing is not modelled, the
  buffering that `client.log` switches on is.
-/

namespace Oxygen

/-! ## Values of the Go runtime -/

abbrev Bytes := String

/-- Error values: the package-level variables of `http.go`, and errors that
come from the standard library. -/
inductive GoError where
  | ErrWriteOffsetNotSupported
  | ErrRangeNotSatisfiable
  | ErrDidNotSucceed
  | ErrUnableToResolvePathId
  | ErrInvalidNodeIdString
  | ErrInvalidNodeTypeString
  | ErrNotEnoughPermissions
  | ErrDirectoryNotEmpty
  | foreign (msg : String)
  deriving DecidableEq, Repr

/-- Result of a Go function that may panic. -/
inductive Run (α : Type) where
  | ret (a : α)
  | panic
  deriving DecidableEq, Repr

/-- Two's-complement wrap-around of `int64` arithmetic. -/
def wrapInt64 (x : Int) : Int :=
  (x + 9223372036854775808) % 18446744073709551616 - 9223372036854775808

/-- The `int64` range. -/
def isInt64 (x : Int) : Prop :=
  -9223372036854775808 ≤ x ∧ x ≤ 9223372036854775807

instance (x : Int) : Decidable (isInt64 x) := by
  unfold isInt64; infer_instance

/-! ## strconv -/

/-- Decimal form of an integer, as `strconv.FormatInt(i, 10)`: a minus sign
for a negative value, then the digits of the magnitude. -/
def FormatInt (i : Int) : String :=
  if i < 0 then "-" ++ Nat.repr i.natAbs else Nat.repr i.natAbs

/-- The two failures of `strconv`: `ErrSyntax` and `ErrRange`. -/
inductive NumError where
  | malformed
  | outOfRange
  deriving DecidableEq, Repr

/-- Loop of `strconv.ParseUint(s, 10, 64)` over the bytes of `s`, `n` being
the value accumulated so far.  `cutoff` is `maxUint64/10 + 1`. -/
def parseUintLoop : List Char → Nat → Nat × Option NumError
  | [], n => (n, none)
  | c :: cs, n =>
    if '0' ≤ c ∧ c ≤ '9' then
      let d := c.toNat - '0'.toNat
      if n ≥ 18446744073709551615 / 10 + 1 then
        (18446744073709551615, some .outOfRange)
      else
        let n10 := n * 10 % 18446744073709551616
        let n1 := (n10 + d) % 18446744073709551616
        if n1 < n10 ∨ n1 > 18446744073709551615 then
          (18446744073709551615, some .outOfRange)
        else parseUintLoop cs n1
    else (0, some .malformed)

/-- Model of `strconv.ParseUint(s, 10, 64)`. -/
def ParseUint (s : List Char) : Nat × Option NumError :=
  if s = [] then (0, some .malformed) else parseUintLoop s 0

/-- Model of `strconv.ParseInt(s, 10, 64)`: the value and the error.  As in
Go a value comes back with the error too: 0 with a malformed string, the
nearest bound with a string out of range. -/
def ParseInt (s : String) : Int × Option NumError :=
  match s.data with
  | [] => (0, some .malformed)
  | c :: cs =>
    let neg := decide (c = '-')
    let rest := if c = '+' ∨ c = '-' then cs else c :: cs
    match ParseUint rest with
    | (_, some .malformed) => (0, some .malformed)
    | (un, _) =>
      if ¬ neg ∧ un ≥ 9223372036854775808 then
        (9223372036854775807, some .outOfRange)
      else if neg ∧ un > 9223372036854775808 then
        (-9223372036854775808, some .outOfRange)
      else (if neg then -(un : Int) else (un : Int), none)

/-! ## fmt -/

/-- Argument of `fmt.Sprintf`. -/
inductive Arg where
  | int (n : Int)
  | str (s : String)
  deriving DecidableEq, Repr

/-- Loop of `Sprintf`: the verbs `%d` and `%s` consume one argument each,
every other byte of the format is copied. -/
def sprintfLoop : List Char → List Arg → String → String
  | '%' :: 'd' :: fs, .int n :: as, acc => sprintfLoop fs as (acc ++ FormatInt n)
  | '%' :: 's' :: fs, .str s :: as, acc => sprintfLoop fs as (acc ++ s)
  | c :: fs, as, acc => sprintfLoop fs as (acc.push c)
  | [], _, acc => acc

/-- Model of `fmt.Sprintf` for the formats of this package (`%d` with an
integer, `%s` with a string). -/
def Sprintf (format : String) (args : List Arg) : String :=
  sprintfLoop format.data args ""

/-! ## oxygen-go.go: the URL builder -/

/-- The fields of `url.URL` that the package sets. -/
structure URL where
  Scheme : String
  Host : String
  Path : String
  RawQuery : String
  deriving DecidableEq, Repr

namespace URL

def AddStringToQuery (urlVar : URL) (query : String) : URL :=
  if urlVar.RawQuery = "" then
    { urlVar with RawQuery := query }
  else
    { urlVar with RawQuery := urlVar.RawQuery ++ ("&" ++ query) }

def SetIdQuery (urlVar : URL) : URL :=
  urlVar.AddStringToQuery "id=true"

def SetOverwriteQuery (urlVar : URL) : URL :=
  urlVar.AddStringToQuery "overwrite=true"

end URL

structure NodeAttributes where
  Id : Int
  /-- The field `Type` of the source. -/
  NodeType : Nat
  Size : Int
  deriving DecidableEq, Repr

/-! ## codes.go -/

structure OxygenResponse where
  Code : Int
  Description : String
  deriving DecidableEq, Repr

/-- The names of the constant block of `codes.go`, in order: the position of
a name is its `iota`. -/
def codeNames : List String :=
  ["SUCCESS", "ERROR_PARSING_JSON", "ERROR_INVALID_METHOD", "ERROR_INVALID_VERSION",
   "ERROR_MISSING_ARGUMENTS", "ERROR_INVALID_PROJECTNAME", "ERROR_PROJECT_ALREADY_EXISTS",
   "ERROR_INVALID_TOKEN", "ERROR_INVALID_RANGE", "ERROR_INVALID_CONTENT_LENGTH",
   "ERROR_INVALID_ID_PARAMETER", "ERROR_REQUIRE_TOKEN", "ERROR_MAX_PROJECTS_REACHED",
   "ERROR_INVALID_CREDENTIALS", "ERROR_NEED_EMAIL_PASSWORD_OR_TOKEN", "ERROR_INVALID_EMAIL",
   "ERROR_INVALID_PASSWORD", "ERROR_INVALID_EXPIRES", "ERROR_INVALID_ARGUMENT_TYPE",
   "ERROR_TOKEN_EMPTY", "ERROR_PROJECT_DOES_NOT_EXIST", "ERROR_INTERNAL_ERROR",
   "ERROR_PATH_NOT_FOUND", "ERROR_PATH_NOT_FOUND_SOURCE", "ERROR_PATH_NOT_FOUND_DESTINATION",
   "ERROR_INVALID_PATH", "ERROR_INVALID_SOURCE_PATH", "ERROR_INVALID_DESTINATIO_PATH",
   "ERROR_DIRECTORY_ALREADY_EXISTS", "ERROR_INVALID_USERNAME", "ERROR_USERNAME_ALREADY_EXISTS",
   "ERROR_EMAIL_ALREADY_IN_USE", "ERROR_NO_WRITE_PERMISSION", "ERROR_NOT_A_DIRECTORY",
   "ERROR_DIRECTORY_NOT_EMPTY", "ERROR_PATH_ALREADY_EXISTS", "ERROR_USER_CANNOT_TAKE_PROJECT",
   "ERROR_PROJECT_ALREADY_SHARED_WITH_USER", "ERROR_INVALID_PERMISSIONS",
   "ERROR_INSUFFICIENT_PERMISSIONS", "ERROR_INSUFFICIENT_PERMISSIONS_SOURCE",
   "ERROR_INSUFFICIENT_PERMISSIONS_DESTINATION", "ERROR_405", "ERROR_OUT_OF_RANGE",
   "NO_RESPONSE_REQUIRED"]

/-- Value of the constant declared at position `iota`: `SUCCESS` is
`iota + 1000000`, and from `ERROR_PARSING_JSON` on the expression `iota + 1`
is repeated. -/
def codeValue (iota : Nat) : Int :=
  if iota = 0 then iota + 1000000 else iota + 1

def ERROR_DIRECTORY_NOT_EMPTY : Int :=
  codeValue (codeNames.indexOf "ERROR_DIRECTORY_NOT_EMPTY")

/-! ## net/http values -/

/-- An `io.Reader`: the bytes it yields, then the error that ends it (`none`
is a clean end of stream, `io.EOF`). -/
structure Stream where
  data : Bytes
  err : Option GoError
  deriving DecidableEq, Repr

/-- An `io.ReadCloser`: a body owned by the transport, whose `Close` releases
it, or `ioutil.NopCloser(r)`, whose `Close` does nothing. -/
inductive ReadCloser where
  | conn (s : Stream)
  | nopCloser (s : Stream)
  deriving DecidableEq, Repr

/-- The reader behind a body. -/
def ReadCloser.stream : ReadCloser → Stream
  | .conn s => s
  | .nopCloser s => s

/-- `http.Header`, a map from canonical key to values, as an association
list. -/
abbrev Header := List (String × List String)

namespace Header

def Values (h : Header) (key : String) : List String :=
  (h.lookup key).getD []

/-- First value of the key, `""` when there is none. -/
def Get (h : Header) (key : String) : String :=
  (Values h key).headD ""

def Set (h : Header) (key value : String) : Header :=
  (key, [value]) :: h.filter (fun kv => kv.1 != key)

def Add (h : Header) (key value : String) : Header :=
  (key, Values h key ++ [value]) :: h.filter (fun kv => kv.1 != key)

end Header

structure Request where
  Method : String
  URL : URL
  Header : Header
  Body : Option ReadCloser
  deriving DecidableEq, Repr

structure Response where
  StatusCode : Int
  Header : Header
  Body : Option ReadCloser
  deriving DecidableEq, Repr

/-- What is observable of a call besides its results. -/
inductive Event where
  | send (req : Request)
  | close (s : Stream)
  deriving DecidableEq, Repr

abbrev Trace := List Event

/-- `body.Close()`. -/
def ReadCloser.Close : ReadCloser → Trace → Trace
  | .conn s, w => w ++ [.close s]
  | .nopCloser _, w => w

/-- `ioutil.ReadAll(r)`: everything the reader yields, and its error if it
did not end cleanly; a nil reader panics. -/
def ReadAll : Option ReadCloser → Run (Bytes × Option GoError)
  | none => .panic
  | some r => .ret (r.stream.data, r.stream.err)

/-- `bytes.NewReader(b)`. -/
def NewReader (b : Bytes) : Stream :=
  { data := b, err := none }

/-- Modelled from the spec: `NewEmptyReader` is not among the source files; it
gives the body of the requests that carry none (HEAD, GET, DELETE), a reader
that yields nothing. -/
def NewEmptyReader : Option Stream :=
  some { data := "", err := none }

/-- The standard library as far as the client cannot determine it. -/
structure GoLib where
  /-- The error of `http.NewRequest(method, url.String(), body)`, if any. -/
  newRequestErr : String → URL → Option GoError
  /-- The value `json.Unmarshal(buf, v)` leaves in `v`. -/
  jsonUnmarshal : Bytes → OxygenResponse → OxygenResponse

/-! ## net/url, as `http.NewRequest` uses it

`prepRequest` hands `urlString.String()` to `http.NewRequest`, which parses
the string again.  Between the two the path is escaped and unescaped, which
gives it back; what changes is where the path starts.  The scheme and the host
of a client are those `url.Parse` found in its endpoint. -/

/-- `removeEmptyPort(host)`: the host without the colon of an empty port. -/
def removeEmptyPort (host : String) : String :=
  if host.data.getLast? = some ':' then String.mk host.data.dropLast else host

/-- The host in an authority: what follows the last `@`. -/
def hostOfAuthority (authority : List Char) : List Char :=
  (authority.reverse.takeWhile (fun c => c != '@')).reverse

/-- The authority and the rest that `url.Parse` finds at the head of the path
when the URL has no host: behind `scheme://` the first segment of a path with
no leading slash, and with no scheme a path that starts with just two
slashes. -/
def pathAuthority (u : URL) : Option (List Char × List Char) :=
  if u.Host ≠ "" then none
  else if u.Scheme ≠ "" then
    match u.Path.data with
    | [] => none
    | '/' :: _ => none
    | p => some (p.takeWhile (fun c => c != '/'), p.dropWhile (fun c => c != '/'))
  else
    match u.Path.data with
    | '/' :: '/' :: '/' :: _ => none
    | '/' :: '/' :: p => some (p.takeWhile (fun c => c != '/'), p.dropWhile (fun c => c != '/'))
    | _ => none

/-- The host of the URL read back. -/
def requestHost (u : URL) : String :=
  if u.Host ≠ "" then removeEmptyPort u.Host
  else
    match pathAuthority u with
    | some (authority, _) => removeEmptyPort (String.mk (hostOfAuthority authority))
    | none => ""

/-- The path of the URL read back.  With a host, `String()` writes a slash
before a path that has none, and it stays.  Without a host the path loses what
is read as authority; with no scheme either, `String()` writes `./` before a
first segment that holds a colon. -/
def requestPath (u : URL) : String :=
  if u.Host ≠ "" then
    if u.Path.data.head? = none ∨ u.Path.data.head? = some '/' then u.Path
    else "/" ++ u.Path
  else
    match pathAuthority u with
    | some (_, rest) => String.mk rest
    | none =>
      if u.Scheme = "" ∧ ':' ∈ u.Path.data.takeWhile (fun c => c != '/') then "./" ++ u.Path
      else u.Path

/-- Model of `url.Parse(u.String())` as `http.NewRequest` keeps it, when it
accepts the string: the scheme in lower case, the query up to a `#`, host and
path as above. -/
def requestURL (u : URL) : URL :=
  { Scheme := String.mk (u.Scheme.data.map Char.toLower)
    Host := requestHost u
    Path := requestPath u
    RawQuery := String.mk (u.RawQuery.data.takeWhile (fun c => c != '#')) }

/-- Model of `http.NewRequest(method, url.String(), body)`: the request for
the URL read back from the string, with no header; a non-nil reader becomes
the body through `NopCloser`. -/
def NewRequest (lib : GoLib) (method : String) (url : URL) (body : Option Stream) :
    Except GoError Request :=
  match lib.newRequestErr method url with
  | some err => .error err
  | none =>
    .ok { Method := method, URL := requestURL url, Header := [], Body := body.map .nopCloser }

/-! ## encoding/json -/

/-- What `encoding/json` writes for one character of a string, as
`json.Marshal` does it (HTML escaping on): a backslash before quote and
backslash, the short forms of backspace, form feed, newline, carriage return
and tab, `\u00xx` for the other control characters and for `<`, `>`, `&`,
`\u2028` and `\u2029` for the two separators, and every other character
as it is. -/
def jsonEscapeChar (c : Char) : String :=
  if c.toNat = 34 then "\\\""
  else if c.toNat = 92 then "\\\\"
  else if c.toNat = 8 then "\\b"
  else if c.toNat = 12 then "\\f"
  else if c.toNat = 10 then "\\n"
  else if c.toNat = 13 then "\\r"
  else if c.toNat = 9 then "\\t"
  else if c.toNat < 32 ∨ c.toNat = 60 ∨ c.toNat = 62 ∨ c.toNat = 38 then
    "\\u00" ++ String.mk [Nat.digitChar (c.toNat / 16), Nat.digitChar (c.toNat % 16)]
  else if c.toNat = 8232 then "\\u2028"
  else if c.toNat = 8233 then "\\u2029"
  else String.singleton c

/-- What `encoding/json` writes for a Go string: the characters escaped,
between quotes. -/
def jsonString (s : String) : String :=
  "\"" ++ String.join (s.data.map jsonEscapeChar) ++ "\""

/-! ## http.go -/

def NODE_ID_HEADER_KEY : String := "Node-Id"
def NODE_TYPE_HEADER_KEY : String := "Node-Type"
def NODE_SIZE_HEADER_KEY : String := "Node-Size"

def INVALID : Nat := 0
def DIRECTORY : Nat := 1
def FILE : Nat := 2

def StatusForbidden : Int := 403
def StatusRequestedRangeNotSatisfiable : Int := 416

/-- The client.  `client` is the behaviour of the `*http.Client`: the pair
`(resp, err)` that `Do` returns for a request.  The field `cache` is read
nowhere in the package and is left out. -/
structure HttpClient where
  endpoint : String
  token : String
  client : Request → Option Response × Option GoError
  log : Bool
  scheme : String
  host : String
  path : String

/-- The method `NewURL`: scheme and host of the client, the formatted path, no
query. -/
def HttpClient.NewURL (client : HttpClient) (format : String) (args : List Arg) : URL :=
  { Scheme := client.scheme, Host := client.host, Path := Sprintf format args, RawQuery := "" }

structure PatchParameters where
  Path : String
  PathUsingId : Bool
  deriving DecidableEq, Repr

/-- Model of `json.Marshal` of a `PatchParameters`: the two fields under
their `json` tags, in declaration order. -/
def jsonMarshal (p : PatchParameters) : Bytes :=
  "\x7b\"path\":" ++ jsonString p.Path ++ ",\"path_using_id\":"
    ++ (if p.PathUsingId then "true" else "false") ++ "\x7d"

/-- Did we get a 2XX respond code? -/
def statusGood (status : Int) : Bool :=
  decide (status ≥ 200) && decide (status ≤ 299)

def setRequestRangeHeader (req : Request) (offset : Int) (size : Int) : Request :=
  if offset ≠ 0 ∨ size ≠ -1 then
    let rangeValue := "bytes=" ++ FormatInt offset ++ "-"
    let rangeValue :=
      if size ≠ -1 then
        rangeValue ++ FormatInt (wrapInt64 (wrapInt64 (offset + wrapInt64 size) - 1))
      else rangeValue
    { req with Header := req.Header.Add "Range" rangeValue }
  else req

def ParseForbiddenErrorResponse (oxygenResponse : OxygenResponse) : GoError :=
  if oxygenResponse.Code = ERROR_DIRECTORY_NOT_EMPTY then .ErrDirectoryNotEmpty
  else .ErrNotEnoughPermissions

/-- `ioutil.ReadAll` never returns a nil slice, so the guard `buf != nil`
always passes and `json.Unmarshal` always runs. -/
def ParseErrorResponse (lib : GoLib) (resp : Response) : Run GoError :=
  match ReadAll resp.Body with
  | .panic => .panic
  | .ret (buf, _) =>
    let oxygenResponse := lib.jsonUnmarshal buf { Code := 0, Description := "" }
    if resp.StatusCode = StatusForbidden then
      .ret (ParseForbiddenErrorResponse oxygenResponse)
    else if resp.StatusCode = StatusRequestedRangeNotSatisfiable then
      .ret .ErrRangeNotSatisfiable
    else
      .ret .ErrDidNotSucceed

def parseNodeAttributes (resp : Response) : Option NodeAttributes × Option GoError :=
  let nodeIdString := resp.Header.Get NODE_ID_HEADER_KEY
  if nodeIdString = "" then
    (none, some .ErrUnableToResolvePathId)
  else
    match ParseInt nodeIdString with
    | (_, some _) => (none, some .ErrInvalidNodeIdString)
    | (nodeId, none) =>
      let nodeSizeString := resp.Header.Get NODE_SIZE_HEADER_KEY
      let nodeSize := (ParseInt nodeSizeString).1
      let nodeTypeString := resp.Header.Get NODE_TYPE_HEADER_KEY
      let nodeType :=
        if nodeTypeString = "directory" then DIRECTORY
        else if nodeTypeString = "file" then FILE
        else INVALID
      (some { Id := nodeId, NodeType := nodeType, Size := nodeSize }, none)

namespace HttpClient

def prepRequest (lib : GoLib) (client : HttpClient) (method : String) (urlString : URL)
    (body : Option Stream) : Except GoError Request :=
  match NewRequest lib method urlString body with
  | .error err => .error err
  | .ok req => .ok { req with Header := req.Header.Set "Authorization" client.token }

def prepEmptyRequest (lib : GoLib) (client : HttpClient) (method : String) (url : URL) :
    Except GoError Request :=
  client.prepRequest lib method url NewEmptyReader

def prepHeadRequest (lib : GoLib) (client : HttpClient) (url : URL) : Except GoError Request :=
  client.prepEmptyRequest lib "HEAD" url

def prepDeleteRequest (lib : GoLib) (client : HttpClient) (url : URL) : Except GoError Request :=
  client.prepEmptyRequest lib "DELETE" url

def prepGetRequest (lib : GoLib) (client : HttpClient) (url : URL) : Except GoError Request :=
  client.prepEmptyRequest lib "GET" url

def prepPostRequest (lib : GoLib) (client : HttpClient) (url : URL) (body : Option Stream) :
    Except GoError Request :=
  client.prepRequest lib "POST" url body

def prepPatchRequest (lib : GoLib) (client : HttpClient) (url : URL) (body : Option Stream) :
    Except GoError Request :=
  client.prepRequest lib "PATCH" url body

/-- The results `(attr, readCloser, err)` of `doRequest`. -/
structure Exchange where
  attr : Option NodeAttributes
  readCloser : Option ReadCloser
  err : Option GoError
  deriving DecidableEq, Repr

/-- The first block `if client.log` of `doRequest`: the request body is read
whole (its error dropped) and a reader over the bytes read takes its place. -/
def captureRequest (log : Bool) (req : Request) : Run Request :=
  if log then
    match ReadAll req.Body with
    | .panic => .panic
    | .ret (body, _) => .ret { req with Body := some (.nopCloser (NewReader body)) }
  else .ret req

/-- The second block `if client.log` of `doRequest`, the same on the
response body. -/
def captureResponse (log : Bool) (resp : Response) : Run Response :=
  if log then
    match ReadAll resp.Body with
    | .panic => .panic
    | .ret (body, _) => .ret { resp with Body := some (.nopCloser (NewReader body)) }
  else .ret resp

/-- Close body reader: `if body != nil { body.Close() }`. -/
def closeBody (body : Option ReadCloser) (w : Trace) : Trace :=
  match body with
  | some body => body.Close w
  | none => w

/-- The method `doRequest`, started in the trace `w`: its results and the
trace it leaves. -/
def doRequest (lib : GoLib) (client : HttpClient) (req : Request) (w : Trace) :
    Run Exchange × Trace :=
  match captureRequest client.log req with
  | .panic => (.panic, w)
  | .ret req =>
    let w := w ++ [.send req]
    match client.client req with
    | (resp, some err) =>
      -- if resp != nil && resp.Body != nil { resp.Body.Close() }
      let w :=
        match resp with
        | some resp => closeBody resp.Body w
        | none => w
      (.ret { attr := none, readCloser := none, err := some err }, w)
    | (none, none) => (.panic, w)
    | (some resp, none) =>
      match captureResponse client.log resp with
      | .panic => (.panic, w)
      | .ret resp =>
        if statusGood resp.StatusCode = false then
          match ParseErrorResponse lib resp with
          | .panic => (.panic, w)
          | .ret err => (.ret { attr := none, readCloser := none, err := some err }, w)
        else
          match parseNodeAttributes resp with
          | (_, some err) =>
            (.ret { attr := none, readCloser := none, err := some err }, closeBody resp.Body w)
          | (attr, none) =>
            (.ret { attr := attr, readCloser := resp.Body, err := none }, w)

def read (lib : GoLib) (client : HttpClient) (url : URL) (offset : Int) (size : Int)
    (w : Trace) : Run Exchange × Trace :=
  match client.prepGetRequest lib url with
  | .error err => (.ret { attr := none, readCloser := none, err := some err }, w)
  | .ok req =>
    let req := setRequestRangeHeader req offset size
    client.doRequest lib req w

def write (lib : GoLib) (client : HttpClient) (url : URL) (offset : Int)
    (reader : Option Stream) (w : Trace) :
    Run (Option NodeAttributes × Option GoError) × Trace :=
  if offset ≠ 0 then
    (.ret (none, some .ErrWriteOffsetNotSupported), w)
  else
    match client.prepPostRequest lib url reader with
    | .error err => (.ret (none, some err), w)
    | .ok req =>
      match client.doRequest lib req w with
      | (.panic, w) => (.panic, w)
      | (.ret x, w) => (.ret (x.attr, x.err), closeBody x.readCloser w)

def patch (lib : GoLib) (client : HttpClient) (url : URL) (buf : Bytes) (w : Trace) :
    Run (Option GoError) × Trace :=
  match client.prepPatchRequest lib url (some (NewReader buf)) with
  | .error err => (.ret (some err), w)
  | .ok req =>
    match client.doRequest lib req w with
    | (.panic, w) => (.panic, w)
    | (.ret x, w) => (.ret x.err, closeBody x.readCloser w)

def delete (lib : GoLib) (client : HttpClient) (url : URL) (w : Trace) :
    Run (Option GoError) × Trace :=
  match client.prepDeleteRequest lib url with
  | .error err => (.ret (some err), w)
  | .ok req =>
    match client.doRequest lib req w with
    | (.panic, w) => (.panic, w)
    | (.ret x, w) => (.ret x.err, closeBody x.readCloser w)

def ResolvePathFromNode (lib : GoLib) (client : HttpClient) (startNode : Int) (path : String)
    (w : Trace) : Run (Option NodeAttributes × Option GoError) × Trace :=
  let url :=
    if path = "" then
      (client.NewURL "%d" [.int startNode]).SetIdQuery
    else
      (client.NewURL "%d/%s" [.int startNode, .str path]).SetIdQuery
  match client.prepHeadRequest lib url with
  | .error err => (.ret (none, some err), w)
  | .ok req =>
    match client.doRequest lib req w with
    | (.panic, w) => (.panic, w)
    | (.ret x, w) => (.ret (x.attr, x.err), closeBody x.readCloser w)

def ResolvePath (lib : GoLib) (client : HttpClient) (path : String) (w : Trace) :=
  client.ResolvePathFromNode lib 1 path w

def ResolveNode (lib : GoLib) (client : HttpClient) (nodeId : Int) (w : Trace) :=
  client.ResolvePathFromNode lib nodeId "" w

def ReadNode (lib : GoLib) (client : HttpClient) (nodeId : Int) (offset : Int) (size : Int)
    (w : Trace) : Run Exchange × Trace :=
  let url := (client.NewURL "%d" [.int nodeId]).SetIdQuery
  client.read lib url offset size w

def ReadPath (lib : GoLib) (client : HttpClient) (path : String) (offset : Int) (size : Int)
    (w : Trace) : Run Exchange × Trace :=
  let url := client.NewURL "%s" [.str path]
  client.read lib url offset size w

def OverwriteNode (lib : GoLib) (client : HttpClient) (nodeId : Int) (offset : Int)
    (data : Option Stream) (w : Trace) :=
  let url := (client.NewURL "%d" [.int nodeId]).SetIdQuery.SetOverwriteQuery
  client.write lib url offset data w

def OverwritePath (lib : GoLib) (client : HttpClient) (path : String) (offset : Int)
    (data : Option Stream) (w : Trace) :=
  let url := (client.NewURL "%s" [.str path]).SetOverwriteQuery
  client.write lib url offset data w

def OverwritePathFromNode (lib : GoLib) (client : HttpClient) (nodeId : Int) (path : String)
    (offset : Int) (data : Option Stream) (w : Trace) :=
  let url := (client.NewURL "%d/%s"
    [.int nodeId, .str path]).SetIdQuery.SetOverwriteQuery
  client.write lib url offset data w

def CreatePathFromNode (lib : GoLib) (client : HttpClient) (nodeId : Int) (path : String)
    (data : Option Stream) (w : Trace) :=
  let url := (client.NewURL "%d/%s" [.int nodeId, .str path]).SetIdQuery
  client.write lib url 0 data w

def CreatePath (lib : GoLib) (client : HttpClient) (path : String) (data : Option Stream)
    (w : Trace) :=
  let url := client.NewURL "%s" [.str path]
  client.write lib url 0 data w

def DeleteFromNode (lib : GoLib) (client : HttpClient) (nodeId : Int) (entry : String)
    (w : Trace) :=
  let url := (client.NewURL "%d/%s" [.int nodeId, .str entry]).SetIdQuery
  client.delete lib url w

def RenameFromNodeToNode (lib : GoLib) (client : HttpClient) (oldNodeId : Int)
    (oldName : String) (newNodeId : Int) (newName : String) (w : Trace) :=
  let url := (client.NewURL "%d/%s"
    [.int oldNodeId, .str oldName]).SetIdQuery.SetOverwriteQuery
  let parameters : PatchParameters :=
    { Path := Sprintf "/%d/%s" [.int newNodeId, .str newName], PathUsingId := true }
  let body := jsonMarshal parameters
  client.patch lib url body w

end HttpClient

/-- The requests handed to the transport, in order. -/
def sentRequests : Trace → List Request
  | [] => []
  | .send req :: w => req :: sentRequests w
  | .close _ :: w => sentRequests w

/-- The transport bodies on which `Close` was called, in order. -/
def closedBodies : Trace → List Stream
  | [] => []
  | .send _ :: w => closedBodies w
  | .close s :: w => s :: closedBodies w

/-- The write operation `op` posts to a URL with query `q`: what it hands to
the transport is at most one request, a POST whose URL has the query `q`; and
it is exactly one request when the offset is 0, `http.NewRequest` accepts
every URL, and the data reader is not nil on a logging client. -/
def PostsWithQuery (lib : GoLib) (client : HttpClient)
    (op : Int → Option Stream → Trace → Run (Option NodeAttributes × Option GoError) × Trace)
    (q : String) : Prop :=
  ∀ offset data w, ∃ rs,
    sentRequests (op offset data w).2 = sentRequests w ++ rs ∧
    rs.length ≤ 1 ∧
    (∀ r ∈ rs, r.Method = "POST" ∧ r.URL.RawQuery = q) ∧
    (offset = 0 → (∀ u, lib.newRequestErr "POST" u = none) →
      (client.log = true → data ≠ none) → rs.length = 1)

/-- The client of the examples: `transport` behind `http://example.org`. -/
def sampleClient (log : Bool) (transport : Request → Option Response × Option GoError) :
    HttpClient :=
  { endpoint := "http://example.org", token := "secret", client := transport, log := log,
    scheme := "http", host := "example.org", path := "" }

/-- The standard library of the examples: `http.NewRequest` accepts every
URL, and `json.Unmarshal` decodes the two bodies the examples use. -/
def sampleLib : GoLib :=
  { newRequestErr := fun _ _ => none
    jsonUnmarshal := fun buf v =>
      if buf = "\x7b\"code\":35\x7d" then { v with Code := 35 }
      else if buf = "\x7b\"code\":40\x7d" then { v with Code := 40 }
      else v }

/-- The request of the examples: a GET on node 1 of `http://example.org`. -/
def sampleRequest : Request :=
  { Method := "GET"
    URL := { Scheme := "http", Host := "example.org", Path := "/1", RawQuery := "id=true" }
    Header := [("Authorization", ["secret"])]
    Body := some (.nopCloser { data := "", err := none }) }

/-- The transport of the examples that answers every request with the status
`status`, no header, and a body of its own holding `body`. -/
def answering (status : Int) (headers : Header) (body : Stream) :
    Request → Option Response × Option GoError :=
  fun _ => (some (Response.mk status headers (some (.conn body))), none)

/-- The URL of the examples: node 1 of `http://example.org`, no query yet. -/
def sampleURL : URL :=
  { Scheme := "http", Host := "example.org", Path := "1", RawQuery := "" }

/-! ## Auxiliary facts -/

theorem wrapInt64_of_isInt64 (x : Int) (h : isInt64 x) : wrapInt64 x = x := by
  unfold isInt64 at h
  unfold wrapInt64
  omega

theorem wrapInt64_sum (offset size : Int) :
    wrapInt64 (wrapInt64 (offset + wrapInt64 size) - 1) = wrapInt64 (offset + size - 1) := by
  unfold wrapInt64
  omega

theorem Header.values_add (h : Header) (key value : String) :
    Header.Values (Header.Add h key value) key = Header.Values h key ++ [value] := by
  simp [Header.Values, Header.Add, List.lookup]

theorem append_ne_empty (s t : String) (h : t ≠ "") : s ++ t ≠ "" := by
  intro hst
  apply h
  have hl : (s ++ t).length = 0 := by rw [hst]; rfl
  rw [String.length_append] at hl
  have ht : t.length = 0 := by omega
  exact String.ext (List.eq_nil_of_length_eq_zero ht)

theorem rawQuery_addStringToQuery (u : URL) (q : String) :
    (u.AddStringToQuery q).RawQuery = if u.RawQuery = "" then q else u.RawQuery ++ ("&" ++ q) := by
  unfold URL.AddStringToQuery
  split <;> rfl

/-! ## The Range header (C1) -/

/-- C1, as the code has it: `setRequestRangeHeader` leaves the request as it
is when `offset = 0` and `size = -1`, and otherwise adds one value to the
`Range` header: `bytes=<offset>-` when `size = -1`, and else
`bytes=<offset>-<end>` where `end` is `offset + size - 1` in wrapping `int64`
arithmetic, which is `offset + size - 1` itself whenever that fits `int64`. -/
theorem setRequestRangeHeader_range (req : Request) (offset size : Int) :
    (offset = 0 ∧ size = -1 → setRequestRangeHeader req offset size = req) ∧
    (¬ (offset = 0 ∧ size = -1) →
      ∃ v, (setRequestRangeHeader req offset size).Header = req.Header.Add "Range" v ∧
        (setRequestRangeHeader req offset size).Header.Values "Range"
          = req.Header.Values "Range" ++ [v] ∧
        (size = -1 → v = "bytes=" ++ FormatInt offset ++ "-") ∧
        (size ≠ -1 →
          v = "bytes=" ++ FormatInt offset ++ "-" ++ FormatInt (wrapInt64 (offset + size - 1))) ∧
        (size ≠ -1 → isInt64 (offset + size - 1) →
          v = "bytes=" ++ FormatInt offset ++ "-" ++ FormatInt (offset + size - 1))) := by
  constructor
  · rintro ⟨h0, h1⟩
    simp [setRequestRangeHeader, h0, h1]
  · intro hne
    have hcond : offset ≠ 0 ∨ size ≠ -1 := by
      by_cases h0 : offset = 0
      · right; intro h1; exact hne ⟨h0, h1⟩
      · left; exact h0
    by_cases hs : size = -1
    · refine ⟨"bytes=" ++ FormatInt offset ++ "-", ?_, ?_, ?_, ?_, ?_⟩
      · rw [setRequestRangeHeader, if_pos hcond]; simp [hs]
      · rw [setRequestRangeHeader, if_pos hcond]; simp [hs, Header.values_add]
      · intro _; rfl
      · intro h; exact absurd hs h
      · intro h; exact absurd hs h
    · refine ⟨"bytes=" ++ FormatInt offset ++ "-"
        ++ FormatInt (wrapInt64 (offset + size - 1)), ?_, ?_, ?_, ?_, ?_⟩
      · rw [setRequestRangeHeader, if_pos hcond]; simp [hs, wrapInt64_sum]
      · rw [setRequestRangeHeader, if_pos hcond]; simp [hs, wrapInt64_sum, Header.values_add]
      · intro h; exact absurd h hs
      · intro _; rfl
      · intro _ hfit; rw [wrapInt64_of_isInt64 _ hfit]

/-- Witness of C1: offset 10 with size 5 gives `bytes=10-14`, and offset 10
with size -1 gives `bytes=10-`. -/
theorem setRequestRangeHeader_range_witness :
    (setRequestRangeHeader sampleRequest 10 5).Header.Get "Range" = "bytes=10-14" ∧
    (setRequestRangeHeader sampleRequest 10 (-1)).Header.Get "Range" = "bytes=10-" ∧
    (¬ ((10 : Int) = 0 ∧ (5 : Int) = -1) ∧ (5 : Int) ≠ -1 ∧ isInt64 (10 + 5 - 1) ∧
      ∃ v, (setRequestRangeHeader sampleRequest 10 5).Header
          = sampleRequest.Header.Add "Range" v ∧
        v = "bytes=" ++ FormatInt 10 ++ "-" ++ FormatInt (10 + 5 - 1)) := by
  refine ⟨by decide, by decide, by decide, by decide, by decide, ?_⟩
  obtain ⟨v, hv, _, _, _, h5⟩ := (setRequestRangeHeader_range sampleRequest 10 5).2 (by decide)
  exact ⟨v, hv, h5 (by decide) (by decide)⟩

/-- Counterexample to C1 as stated: with offset 2^63-1 and size 2 the sum
wraps, and the header value ends in `-9223372036854775808`, which is not the
decimal form of `offset + size - 1`. -/
theorem setRequestRangeHeader_overflow :
    isInt64 9223372036854775807 ∧
    (setRequestRangeHeader sampleRequest 9223372036854775807 2).Header.Values "Range"
      = ["bytes=9223372036854775807--9223372036854775808"] ∧
    (setRequestRangeHeader sampleRequest 9223372036854775807 2).Header.Values "Range"
      ≠ ["bytes=" ++ FormatInt 9223372036854775807 ++ "-"
          ++ FormatInt (9223372036854775807 + 2 - 1)] := by
  refine ⟨by decide, by decide, by decide⟩

/-! ## The trace of an exchange -/

theorem sentRequests_append (a b : Trace) :
    sentRequests (a ++ b) = sentRequests a ++ sentRequests b := by
  induction a with
  | nil => rfl
  | cons e a ih => cases e <;> simp [sentRequests, ih]

theorem closedBodies_append (a b : Trace) :
    closedBodies (a ++ b) = closedBodies a ++ closedBodies b := by
  induction a with
  | nil => rfl
  | cons e a ih => cases e <;> simp [closedBodies, ih]

theorem sentRequests_closeBody (body : Option ReadCloser) (w : Trace) :
    sentRequests (HttpClient.closeBody body w) = sentRequests w := by
  cases body with
  | none => rfl
  | some b => cases b <;> simp [HttpClient.closeBody, ReadCloser.Close, sentRequests_append,
      sentRequests]

/-- The requests `doRequest` hands to the transport: the request as captured,
once, unless capturing it panics. -/
theorem doRequest_sent (lib : GoLib) (client : HttpClient) (req : Request) (w : Trace) :
    sentRequests (client.doRequest lib req w).2 = sentRequests w ++
      (match HttpClient.captureRequest client.log req with
       | .panic => []
       | .ret r => [r]) := by
  unfold HttpClient.doRequest
  cases hc : HttpClient.captureRequest client.log req with
  | panic => simp
  | ret r =>
    simp only
    rcases hd : client.client r with ⟨resp, err⟩
    cases err with
    | some e =>
      cases resp with
      | none => simp [sentRequests_append, sentRequests]
      | some resp => simp [sentRequests_append, sentRequests, sentRequests_closeBody]
    | none =>
      cases resp with
      | none => simp [sentRequests_append, sentRequests]
      | some resp =>
        simp only
        cases hr : HttpClient.captureResponse client.log resp with
        | panic => simp [sentRequests_append, sentRequests]
        | ret resp2 =>
          simp only
          split
          · split <;> simp [sentRequests_append, sentRequests]
          · split <;> simp [sentRequests_append, sentRequests, sentRequests_closeBody]

theorem captureRequest_ret (log : Bool) (req r : Request)
    (h : HttpClient.captureRequest log req = .ret r) :
    r.Method = req.Method ∧ r.URL = req.URL ∧ r.Header = req.Header := by
  unfold HttpClient.captureRequest at h
  split at h
  · split at h
    · cases h
    · cases h; exact ⟨rfl, rfl, rfl⟩
  · cases h; exact ⟨rfl, rfl, rfl⟩

theorem captureRequest_some (log : Bool) (req : Request) (h : log = true → req.Body ≠ none) :
    ∃ r, HttpClient.captureRequest log req = .ret r := by
  unfold HttpClient.captureRequest
  cases log with
  | false => exact ⟨req, by simp⟩
  | true =>
    cases hb : req.Body with
    | none => exact absurd hb (h rfl)
    | some b =>
      refine ⟨{ req with Body := some (.nopCloser (NewReader b.stream.data)) }, ?_⟩
      simp [hb, ReadAll]

/-- What `write` hands to the transport: the query is that of the URL, up to
a `#`. -/
theorem write_posts (lib : GoLib) (client : HttpClient) (url : URL) :
    PostsWithQuery lib client (fun offset data w => client.write lib url offset data w)
      (String.mk (url.RawQuery.data.takeWhile (fun c => c != '#'))) := by
  intro offset data w
  simp only [HttpClient.write]
  by_cases ho : offset = 0
  · simp only [ho, ne_eq, not_true_eq_false, if_false]
    cases hn : lib.newRequestErr "POST" url with
    | some e =>
      refine ⟨[], ?_, by simp, by simp, ?_⟩
      · simp [HttpClient.prepPostRequest, HttpClient.prepRequest, NewRequest, hn]
      · intro _ hall; rw [hall] at hn; cases hn
    | none =>
      simp only [HttpClient.prepPostRequest, HttpClient.prepRequest, NewRequest, hn]
      generalize hreq : (Request.mk "POST" (requestURL url)
        (Header.Set [] "Authorization" client.token)
        (Option.map ReadCloser.nopCloser data)) = req
      have hsent := doRequest_sent lib client req w
      have hbody : req.Body = Option.map ReadCloser.nopCloser data := by rw [← hreq]
      cases hc : HttpClient.captureRequest client.log req with
      | panic =>
        rw [hc] at hsent
        refine ⟨[], ?_, by simp, by simp, ?_⟩
        · rcases hd : client.doRequest lib req w with ⟨x, w2⟩
          rw [hd] at hsent
          cases x <;> simpa [sentRequests_closeBody] using hsent
        · intro _ _ hdata
          have hne : client.log = true → req.Body ≠ none := by
            intro hl; rw [hbody]; cases data with
            | none => exact absurd rfl (hdata hl)
            | some d => simp
          obtain ⟨r, hr⟩ := captureRequest_some client.log req hne
          rw [hr] at hc; cases hc
      | ret r =>
        rw [hc] at hsent
        obtain ⟨hm, hu, _⟩ := captureRequest_ret _ _ _ hc
        refine ⟨[r], ?_, by simp, ?_, by simp⟩
        · rcases hd : client.doRequest lib req w with ⟨x, w2⟩
          rw [hd] at hsent
          cases x <;> simpa [sentRequests_closeBody] using hsent
        · intro r2 hr2
          simp only [List.mem_singleton] at hr2
          subst hr2
          rw [hm, hu, ← hreq]
          exact ⟨rfl, rfl⟩
  · refine ⟨[], ?_, by simp, by simp, ?_⟩
    · simp [ho]
    · intro h0; exact absurd h0 ho

/-! ## Write offsets (C2) -/

/-- C2: a write operation called with a non-zero offset returns no attributes
and `ErrWriteOffsetNotSupported`, and leaves the trace as it found it: nothing
is handed to the transport, whatever `http.NewRequest` would have answered. -/
theorem write_nonzero_offset (lib : GoLib) (client : HttpClient) (nodeId : Int) (path : String)
    (offset : Int) (data : Option Stream) (w : Trace) (h : offset ≠ 0) :
    client.OverwriteNode lib nodeId offset data w
      = (.ret (none, some .ErrWriteOffsetNotSupported), w) ∧
    client.OverwritePath lib path offset data w
      = (.ret (none, some .ErrWriteOffsetNotSupported), w) ∧
    client.OverwritePathFromNode lib nodeId path offset data w
      = (.ret (none, some .ErrWriteOffsetNotSupported), w) ∧
    sentRequests (client.OverwriteNode lib nodeId offset data w).2 = sentRequests w ∧
    sentRequests (client.OverwritePath lib path offset data w).2 = sentRequests w ∧
    sentRequests (client.OverwritePathFromNode lib nodeId path offset data w).2
      = sentRequests w := by
  simp [HttpClient.OverwriteNode, HttpClient.OverwritePath, HttpClient.OverwritePathFromNode,
    HttpClient.write, h]

/-- Witness of C2: overwriting node 7 at offset 3 on a client whose transport
would answer 200 fails before the transport is reached. -/
theorem write_nonzero_offset_witness :
    (3 : Int) ≠ 0 ∧
    (sampleClient false (fun _ => (some (Response.mk 200 [("Node-Id", ["7"])]
        (some (.conn (Stream.mk "" none)))), none))).OverwriteNode
      sampleLib 7 3 (some (Stream.mk "hello" none)) []
      = (.ret (none, some .ErrWriteOffsetNotSupported), []) :=
  ⟨by decide, (write_nonzero_offset sampleLib _ 7 "a/b" 3 _ [] (by decide)).1⟩

/-! ## The URL builder (C7, C10) -/

/-- C7, as the code has it: each augmentation appends its flag.  On an empty
query `SetIdQuery` gives `id=true`, on any other it appends `&id=true`; so a
second application appends `&id=true` once more and never gives the query of
one application.  Likewise `SetOverwriteQuery` with `overwrite=true`. -/
theorem setQuery_appends (u : URL) :
    u.SetIdQuery.RawQuery = (if u.RawQuery = "" then "id=true" else u.RawQuery ++ "&id=true") ∧
    u.SetIdQuery.SetIdQuery.RawQuery = u.SetIdQuery.RawQuery ++ "&id=true" ∧
    u.SetIdQuery.SetIdQuery.RawQuery ≠ u.SetIdQuery.RawQuery ∧
    u.SetOverwriteQuery.RawQuery
      = (if u.RawQuery = "" then "overwrite=true" else u.RawQuery ++ "&overwrite=true") ∧
    u.SetOverwriteQuery.SetOverwriteQuery.RawQuery
      = u.SetOverwriteQuery.RawQuery ++ "&overwrite=true" ∧
    u.SetOverwriteQuery.SetOverwriteQuery.RawQuery ≠ u.SetOverwriteQuery.RawQuery := by
  have hne : ∀ (v : URL) (q : String), q ≠ "" → (v.AddStringToQuery q).RawQuery ≠ "" := by
    intro v q hq
    rw [rawQuery_addStringToQuery]
    split
    · exact hq
    · exact append_ne_empty v.RawQuery ("&" ++ q) (append_ne_empty "&" q hq)
  have hlen : ∀ (a b : String), b ≠ "" → a ++ b ≠ a := by
    intro a b hb hab
    have hl : (a ++ b).length = a.length := by rw [hab]
    rw [String.length_append] at hl
    have h0 : b.length = 0 := by omega
    exact hb (String.ext (List.eq_nil_of_length_eq_zero h0))
  have h2 : ∀ (v : URL) (q : String), q ≠ "" →
      ((v.AddStringToQuery q).AddStringToQuery q).RawQuery
        = (v.AddStringToQuery q).RawQuery ++ ("&" ++ q) := by
    intro v q hq
    rw [rawQuery_addStringToQuery (v.AddStringToQuery q), if_neg (hne v q hq)]
  refine ⟨?_, ?_, ?_, ?_, ?_, ?_⟩
  · exact rawQuery_addStringToQuery u "id=true"
  · exact h2 u "id=true" (by decide)
  · unfold URL.SetIdQuery
    rw [h2 u "id=true" (by decide)]
    exact hlen _ _ (by decide)
  · exact rawQuery_addStringToQuery u "overwrite=true"
  · exact h2 u "overwrite=true" (by decide)
  · unfold URL.SetOverwriteQuery
    rw [h2 u "overwrite=true" (by decide)]
    exact hlen _ _ (by decide)

/-- Counterexample to C7 as stated: on the URL of node 1 with no query, one
`SetIdQuery` gives `id=true` and two give `id=true&id=true`; the same with
`SetOverwriteQuery`. -/
theorem setQuery_twice_differs :
    sampleURL.SetIdQuery.RawQuery = "id=true" ∧
    sampleURL.SetIdQuery.SetIdQuery.RawQuery = "id=true&id=true" ∧
    sampleURL.SetIdQuery.SetIdQuery.RawQuery ≠ sampleURL.SetIdQuery.RawQuery ∧
    sampleURL.SetOverwriteQuery.RawQuery = "overwrite=true" ∧
    sampleURL.SetOverwriteQuery.SetOverwriteQuery.RawQuery = "overwrite=true&overwrite=true" ∧
    sampleURL.SetOverwriteQuery.SetOverwriteQuery.RawQuery
      ≠ sampleURL.SetOverwriteQuery.RawQuery := by
  refine ⟨by decide, by decide, by decide, by decide, by decide, by decide⟩

/-- C10: the query of the URL each write operation posts to.  `CreatePath`
has no flag, `CreatePathFromNode` has `id=true`, `OverwritePath` has
`overwrite=true`, `OverwriteNode` and `OverwritePathFromNode` have
`id=true&overwrite=true`, whatever the node, the path and the data. -/
theorem write_queries (lib : GoLib) (client : HttpClient) (nodeId : Int) (path : String) :
    PostsWithQuery lib client (fun _ data w => client.CreatePath lib path data w) "" ∧
    PostsWithQuery lib client (fun _ data w => client.CreatePathFromNode lib nodeId path data w)
      "id=true" ∧
    PostsWithQuery lib client (fun offset data w => client.OverwritePath lib path offset data w)
      "overwrite=true" ∧
    PostsWithQuery lib client (fun offset data w => client.OverwriteNode lib nodeId offset data w)
      "id=true&overwrite=true" ∧
    PostsWithQuery lib client
      (fun offset data w => client.OverwritePathFromNode lib nodeId path offset data w)
      "id=true&overwrite=true" := by
  refine ⟨?_, ?_, ?_, ?_, ?_⟩
  · intro offset data w
    obtain ⟨rs, h1, h2, h3, h4⟩ :=
      write_posts lib client (client.NewURL "%s" [.str path]) 0 data w
    exact ⟨rs, h1, h2, h3, fun _ => h4 rfl⟩
  · intro offset data w
    obtain ⟨rs, h1, h2, h3, h4⟩ := write_posts lib client
      (client.NewURL "%d/%s" [.int nodeId, .str path]).SetIdQuery 0 data w
    exact ⟨rs, h1, h2, h3, fun _ => h4 rfl⟩
  · exact write_posts lib client
      (client.NewURL "%s" [.str path]).SetOverwriteQuery
  · exact write_posts lib client
      (client.NewURL "%d" [.int nodeId]).SetIdQuery.SetOverwriteQuery
  · exact write_posts lib client
      (client.NewURL "%d/%s"
        [.int nodeId, .str path]).SetIdQuery.SetOverwriteQuery

/-- Witness of C10: on a client whose transport answers 200, `OverwriteNode`
at offset 0 hands the transport one POST with the query
`id=true&overwrite=true`, and `CreatePath` one POST with no query. -/
theorem write_queries_witness :
    (∃ r, sentRequests ((sampleClient false (answering 200 [("Node-Id", ["7"])]
        (Stream.mk "" none))).OverwriteNode sampleLib 7 0 (some (Stream.mk "hello" none)) []).2
        = [r] ∧ r.Method = "POST" ∧ r.URL.RawQuery = "id=true&overwrite=true") ∧
    (∃ r, sentRequests ((sampleClient false (answering 200 [("Node-Id", ["7"])]
        (Stream.mk "" none))).CreatePath sampleLib "a/b" (some (Stream.mk "hello" none)) []).2
        = [r] ∧ r.Method = "POST" ∧ r.URL.RawQuery = "") := by
  have one : ∀ (rs : List Request), rs.length = 1 → ∃ r, rs = [r] := by
    intro rs h
    match rs, h with
    | [r], _ => exact ⟨r, rfl⟩
  constructor
  · obtain ⟨rs, h1, _, h3, h4⟩ := (write_queries sampleLib (sampleClient false
      (answering 200 [("Node-Id", ["7"])] (Stream.mk "" none))) 7 "a/b").2.2.2.1 0
      (some (Stream.mk "hello" none)) []
    obtain ⟨r, hr⟩ := one rs (h4 rfl (fun _ => rfl) (by decide))
    subst hr
    exact ⟨r, by simpa [sentRequests] using h1, h3 r (List.mem_singleton_self r)⟩
  · obtain ⟨rs, h1, _, h3, h4⟩ := (write_queries sampleLib (sampleClient false
      (answering 200 [("Node-Id", ["7"])] (Stream.mk "" none))) 7 "a/b").1 0
      (some (Stream.mk "hello" none)) []
    obtain ⟨r, hr⟩ := one rs (h4 rfl (fun _ => rfl) (by decide))
    subst hr
    exact ⟨r, by simpa [sentRequests] using h1, h3 r (List.mem_singleton_self r)⟩

/-! ## The error classifier (C3) -/

/-- C3: the decision table of `ParseErrorResponse`, for a response with a
body `b`.  The code is what `json.Unmarshal` leaves in a zeroed
`OxygenResponse` after reading the body.  Status 403 gives
`ErrDirectoryNotEmpty` exactly when the code is `ERROR_DIRECTORY_NOT_EMPTY`,
which is 35, and `ErrNotEnoughPermissions` for every other code, the zero of
an undecoded body among them; status 416 gives `ErrRangeNotSatisfiable` and
every other status `ErrDidNotSucceed`, whatever the body. -/
theorem ParseErrorResponse_table (lib : GoLib) (resp : Response) (b : ReadCloser)
    (hb : resp.Body = some b) :
    ERROR_DIRECTORY_NOT_EMPTY = 35 ∧
    (resp.StatusCode = 403 →
      (ParseErrorResponse lib resp = .ret .ErrDirectoryNotEmpty ↔
        (lib.jsonUnmarshal b.stream.data { Code := 0, Description := "" }).Code = 35) ∧
      ((lib.jsonUnmarshal b.stream.data { Code := 0, Description := "" }).Code ≠ 35 →
        ParseErrorResponse lib resp = .ret .ErrNotEnoughPermissions) ∧
      ((lib.jsonUnmarshal b.stream.data { Code := 0, Description := "" }).Code = 0 →
        ParseErrorResponse lib resp = .ret .ErrNotEnoughPermissions)) ∧
    (resp.StatusCode = 416 → ParseErrorResponse lib resp = .ret .ErrRangeNotSatisfiable) ∧
    (resp.StatusCode ≠ 403 → resp.StatusCode ≠ 416 →
      ParseErrorResponse lib resp = .ret .ErrDidNotSucceed) := by
  have h35 : ERROR_DIRECTORY_NOT_EMPTY = 35 := by decide
  refine ⟨h35, ?_, ?_, ?_⟩
  · intro h403
    have hne : ∀ c : Int, c ≠ 35 → (lib.jsonUnmarshal b.stream.data
        { Code := 0, Description := "" }).Code = c →
        ParseErrorResponse lib resp = .ret .ErrNotEnoughPermissions := by
      intro c hc hcode
      simp [ParseErrorResponse, hb, ReadAll, h403, StatusForbidden,
        ParseForbiddenErrorResponse, h35, hcode, hc]
    refine ⟨?_, fun h => hne _ h rfl, fun h => hne 0 (by decide) h⟩
    constructor
    · intro hret
      by_contra hcode
      rw [hne _ hcode rfl] at hret
      cases hret
    · intro hcode
      simp [ParseErrorResponse, hb, ReadAll, h403, StatusForbidden,
        ParseForbiddenErrorResponse, h35, hcode]
  · intro h416
    simp [ParseErrorResponse, hb, ReadAll, h416, StatusForbidden,
      StatusRequestedRangeNotSatisfiable]
  · intro h403 h416
    simp [ParseErrorResponse, hb, ReadAll, h403, h416, StatusForbidden,
      StatusRequestedRangeNotSatisfiable]

/-- Witness of C3: a 403 whose body carries the code 35 is
`ErrDirectoryNotEmpty`, one with the code 40 or with no JSON at all is
`ErrNotEnoughPermissions`, and a 416 with the code 35 in its body is
`ErrRangeNotSatisfiable`. -/
theorem ParseErrorResponse_table_witness :
    ParseErrorResponse sampleLib
      (Response.mk 403 [] (some (.conn (Stream.mk "\x7b\"code\":35\x7d" none))))
      = .ret .ErrDirectoryNotEmpty ∧
    ParseErrorResponse sampleLib
      (Response.mk 403 [] (some (.conn (Stream.mk "\x7b\"code\":40\x7d" none))))
      = .ret .ErrNotEnoughPermissions ∧
    ParseErrorResponse sampleLib (Response.mk 403 [] (some (.conn (Stream.mk "" none))))
      = .ret .ErrNotEnoughPermissions ∧
    ParseErrorResponse sampleLib
      (Response.mk 416 [] (some (.conn (Stream.mk "\x7b\"code\":35\x7d" none))))
      = .ret .ErrRangeNotSatisfiable :=
  ⟨((ParseErrorResponse_table sampleLib _ _ rfl).2.1 rfl).1.2 (by decide),
   ((ParseErrorResponse_table sampleLib _ _ rfl).2.1 rfl).2.1 (by decide),
   ((ParseErrorResponse_table sampleLib _ _ rfl).2.1 rfl).2.2 (by decide),
   (ParseErrorResponse_table sampleLib _ _ rfl).2.2.1 rfl⟩

/-! ## Decoding the attributes (C4, C5) -/

theorem ParseInt_malformed (s : String) (h : (ParseInt s).2 = some .malformed) :
    (ParseInt s).1 = 0 := by
  unfold ParseInt at h ⊢
  cases hs : s.data with
  | nil => rfl
  | cons c cs =>
    rw [hs] at h
    simp only at h ⊢
    generalize ParseUint (if c = '+' ∨ c = '-' then cs else c :: cs) = p at h ⊢
    rcases p with ⟨un, _ | _ | _⟩
    · simp only at h
      split_ifs at h <;> simp at h
    · rfl
    · simp only at h
      split_ifs at h <;> simp at h

theorem ParseInt_outOfRange (s : String) (h : (ParseInt s).2 = some .outOfRange) :
    (ParseInt s).1 = 9223372036854775807 ∨ (ParseInt s).1 = -9223372036854775808 := by
  unfold ParseInt at h ⊢
  cases hs : s.data with
  | nil => rw [hs] at h; cases h
  | cons c cs =>
    rw [hs] at h
    simp only at h ⊢
    generalize ParseUint (if c = '+' ∨ c = '-' then cs else c :: cs) = p at h ⊢
    rcases p with ⟨un, _ | _ | _⟩
    · simp only at h ⊢
      split_ifs at h ⊢
      · left; rfl
      · right; rfl
    · cases h
    · simp only at h ⊢
      split_ifs at h ⊢
      · left; rfl
      · right; rfl

theorem ParseUint_noDigit (l : List Char) (h : ∀ c ∈ l, ¬ ('0' ≤ c ∧ c ≤ '9')) :
    ParseUint l = (0, some .malformed) := by
  cases l with
  | nil => rfl
  | cons c cs =>
    have hc := h c (List.mem_cons_self c cs)
    simp only [ParseUint, parseUintLoop, if_neg hc]
    simp

theorem ParseInt_noDigit (s : String) (h : ∀ c ∈ s.data, ¬ ('0' ≤ c ∧ c ≤ '9')) :
    ParseInt s = (0, some .malformed) := by
  unfold ParseInt
  cases hs : s.data with
  | nil => rfl
  | cons c cs =>
    rw [hs] at h
    have hrest : ∀ x ∈ (if c = '+' ∨ c = '-' then cs else c :: cs), ¬ ('0' ≤ x ∧ x ≤ '9') := by
      intro x hx
      split at hx
      · exact h x (List.mem_cons_of_mem c hx)
      · exact h x hx
    simp only [ParseUint_noDigit _ hrest]

theorem captureResponse_ret (log : Bool) (resp r : Response)
    (h : HttpClient.captureResponse log resp = .ret r) :
    r.StatusCode = resp.StatusCode ∧ r.Header = resp.Header := by
  unfold HttpClient.captureResponse at h
  split at h
  · split at h
    · cases h
    · cases h; exact ⟨rfl, rfl⟩
  · cases h; exact ⟨rfl, rfl⟩

theorem captureResponse_some (log : Bool) (resp : Response)
    (h : log = true → resp.Body ≠ none) :
    ∃ r, HttpClient.captureResponse log resp = .ret r := by
  unfold HttpClient.captureResponse
  cases log with
  | false => exact ⟨resp, by simp⟩
  | true =>
    cases hb : resp.Body with
    | none => exact absurd hb (h rfl)
    | some b =>
      refine ⟨{ resp with Body := some (.nopCloser (NewReader b.stream.data)) }, ?_⟩
      simp [hb, ReadAll]

theorem parseNodeAttributes_header (r resp : Response) (h : r.Header = resp.Header) :
    parseNodeAttributes r = parseNodeAttributes resp := by
  unfold parseNodeAttributes
  rw [h]

theorem statusGood_iff (status : Int) : statusGood status = true ↔ 200 ≤ status ∧ status ≤ 299 := by
  simp [statusGood]

/-- C4: when the transport answers a request with a response whose status is
in 200..299, and the `Node-Id` header is absent or empty, `doRequest` fails
with `ErrUnableToResolvePathId`; when the header is there and `strconv`
rejects it, `doRequest` fails with `ErrInvalidNodeIdString`.  Either way no
attributes and no body come back.  On a logging client the request and the
response must carry a body, which is read into the log. -/
theorem doRequest_nodeId_required (lib : GoLib) (client : HttpClient) (req : Request)
    (w : Trace) (resp : Response)
    (hq : client.log = true → req.Body ≠ none)
    (hdo : ∀ r, HttpClient.captureRequest client.log req = .ret r →
      client.client r = (some resp, none))
    (hr : client.log = true → resp.Body ≠ none)
    (hs : 200 ≤ resp.StatusCode ∧ resp.StatusCode ≤ 299) :
    (resp.Header.Get NODE_ID_HEADER_KEY = "" →
      (client.doRequest lib req w).1
        = .ret { attr := none, readCloser := none, err := some .ErrUnableToResolvePathId }) ∧
    (resp.Header.Get NODE_ID_HEADER_KEY ≠ "" →
      (ParseInt (resp.Header.Get NODE_ID_HEADER_KEY)).2 ≠ none →
      (client.doRequest lib req w).1
        = .ret { attr := none, readCloser := none, err := some .ErrInvalidNodeIdString }) := by
  obtain ⟨r, hcq⟩ := captureRequest_some client.log req hq
  obtain ⟨resp2, hcr⟩ := captureResponse_some client.log resp hr
  obtain ⟨hst, hhd⟩ := captureResponse_ret _ _ _ hcr
  have hgood : statusGood resp2.StatusCode = true := by
    rw [hst]; exact (statusGood_iff _).2 hs
  have hattr := parseNodeAttributes_header resp2 resp hhd
  constructor
  · intro hid
    have hp : parseNodeAttributes resp = (none, some .ErrUnableToResolvePathId) := by
      simp [parseNodeAttributes, hid]
    simp [HttpClient.doRequest, hcq, hdo r hcq, hcr, hgood, hattr, hp]
  · intro hid herr
    have hp : parseNodeAttributes resp = (none, some .ErrInvalidNodeIdString) := by
      unfold parseNodeAttributes
      simp only [if_neg hid]
      rcases hpi : ParseInt (resp.Header.Get NODE_ID_HEADER_KEY) with ⟨v, e⟩
      rw [hpi] at herr
      cases e with
      | none => exact absurd rfl herr
      | some e => rfl
    simp [HttpClient.doRequest, hcq, hdo r hcq, hcr, hgood, hattr, hp]

/-- Witness of C4: a 204 with no header at all is
`ErrUnableToResolvePathId`. -/
theorem doRequest_nodeId_required_witness :
    ((sampleClient false (fun _ => (some (Response.mk 204 []
        (some (.conn (Stream.mk "" none)))), none))).doRequest sampleLib sampleRequest []).1
      = .ret { attr := none, readCloser := none, err := some .ErrUnableToResolvePathId } :=
  (doRequest_nodeId_required sampleLib (sampleClient false _) sampleRequest []
    (Response.mk 204 [] (some (.conn (Stream.mk "" none))))
    (by decide) (fun _ _ => rfl) (by decide) (by decide)).1 (by decide)

/-- C5, as the code has it: with a `Node-Id` that `strconv` accepts, decoding
succeeds, and `Size` is the value `strconv.ParseInt` returns for the
`Node-Size` header, its error dropped.  That is 0 when the header is absent or
empty, when it holds no digit at all, and whenever `strconv` finds it
malformed; when `strconv` finds it out of range, `Size` is the bound of
`int64` on that side, 2^63-1 or -2^63. -/
theorem parseNodeAttributes_size (resp : Response) (id : Int)
    (hid : resp.Header.Get NODE_ID_HEADER_KEY ≠ "")
    (hparse : ParseInt (resp.Header.Get NODE_ID_HEADER_KEY) = (id, none)) :
    ∃ attr, parseNodeAttributes resp = (some attr, none) ∧ attr.Id = id ∧
      attr.Size = (ParseInt (resp.Header.Get NODE_SIZE_HEADER_KEY)).1 ∧
      (resp.Header.Get NODE_SIZE_HEADER_KEY = "" → attr.Size = 0) ∧
      ((∀ c ∈ (resp.Header.Get NODE_SIZE_HEADER_KEY).data, ¬ ('0' ≤ c ∧ c ≤ '9')) →
        attr.Size = 0) ∧
      ((ParseInt (resp.Header.Get NODE_SIZE_HEADER_KEY)).2 = some .malformed → attr.Size = 0) ∧
      ((ParseInt (resp.Header.Get NODE_SIZE_HEADER_KEY)).2 = some .outOfRange →
        attr.Size = 9223372036854775807 ∨ attr.Size = -9223372036854775808) := by
  refine ⟨{ Id := id
            NodeType :=
              if resp.Header.Get NODE_TYPE_HEADER_KEY = "directory" then DIRECTORY
              else if resp.Header.Get NODE_TYPE_HEADER_KEY = "file" then FILE
              else INVALID
            Size := (ParseInt (resp.Header.Get NODE_SIZE_HEADER_KEY)).1 },
    ?_, rfl, rfl, ?_, ?_, ?_, ?_⟩
  · unfold parseNodeAttributes
    simp only [if_neg hid, hparse]
  · intro h; simp only [h]; rfl
  · intro h; simp only [ParseInt_noDigit _ h]
  · intro h; exact ParseInt_malformed _ h
  · intro h; exact ParseInt_outOfRange _ h

/-- Witness of C5: with `Node-Id: 12` and `Node-Size: 4x` the attributes are
those of node 12 with size 0. -/
theorem parseNodeAttributes_size_witness :
    ∃ attr, parseNodeAttributes
        (Response.mk 200 [("Node-Id", ["12"]), ("Node-Size", ["4x"])] none) = (some attr, none) ∧
      attr.Id = 12 ∧ attr.Size = 0 := by
  obtain ⟨attr, h, hid, _, _, _, hm, _⟩ := parseNodeAttributes_size
    (Response.mk 200 [("Node-Id", ["12"]), ("Node-Size", ["4x"])] none) 12
    (by decide) (by decide)
  exact ⟨attr, h, hid, hm (by decide)⟩

/-- Counterexample to C5 as stated: with `Node-Size: 9223372036854775808`, a
digit string just outside `int64`, the size decoded is 9223372036854775807,
not 0; with twenty nines behind a minus sign it is -9223372036854775808. -/
theorem parseNodeAttributes_size_clamped :
    parseNodeAttributes
      (Response.mk 200 [("Node-Id", ["12"]), ("Node-Size", ["9223372036854775808"])] none)
      = (some { Id := 12, NodeType := 0, Size := 9223372036854775807 }, none) ∧
    parseNodeAttributes
      (Response.mk 200 [("Node-Id", ["12"]), ("Node-Size", ["-99999999999999999999"])] none)
      = (some { Id := 12, NodeType := 0, Size := -9223372036854775808 }, none) := by
  refine ⟨by decide, by decide⟩

/-! ## Rename (C6) -/

theorem rename_url (client : HttpClient) (n : Int) (name : String) :
    (client.NewURL "%d/%s" [.int n, .str name]).SetIdQuery.SetOverwriteQuery
      = URL.mk client.scheme client.host (FormatInt n ++ "/" ++ name)
          "id=true&overwrite=true" := by
  rfl

theorem captureRequest_replay (log : Bool) (method : String) (url : URL) (h : Header)
    (buf : Stream) (hb : buf.err = none) :
    HttpClient.captureRequest log (Request.mk method url h (some (.nopCloser buf)))
      = .ret (Request.mk method url h (some (.nopCloser buf))) := by
  cases buf with
  | mk data err =>
    simp only at hb
    subst hb
    cases log <;> simp [HttpClient.captureRequest, ReadAll, ReadCloser.stream, NewReader]

theorem digitChar_digit (d : Nat) (h : d < 10) :
    48 ≤ (Nat.digitChar d).toNat ∧ (Nat.digitChar d).toNat ≤ 57 := by
  interval_cases d <;> decide

theorem toDigitsCore_digit (fuel : Nat) : ∀ (n : Nat) (ds : List Char),
    (∀ c ∈ ds, 48 ≤ c.toNat ∧ c.toNat ≤ 57) →
    ∀ c ∈ Nat.toDigitsCore 10 fuel n ds, 48 ≤ c.toNat ∧ c.toNat ≤ 57 := by
  induction fuel with
  | zero => intro n ds h; simpa [Nat.toDigitsCore] using h
  | succ fuel ih =>
    intro n ds h
    have hd : ∀ c ∈ Nat.digitChar (n % 10) :: ds, 48 ≤ c.toNat ∧ c.toNat ≤ 57 := by
      intro c hc
      rcases List.mem_cons.1 hc with hc | hc
      · rw [hc]; exact digitChar_digit _ (Nat.mod_lt _ (by decide))
      · exact h c hc
    simp only [Nat.toDigitsCore]
    split
    · exact hd
    · exact ih _ _ hd

theorem toDigitsCore_ne_nil (fuel : Nat) : ∀ (n : Nat) (ds : List Char),
    ds ≠ [] → Nat.toDigitsCore 10 fuel n ds ≠ [] := by
  induction fuel with
  | zero => intro n ds h; simpa [Nat.toDigitsCore] using h
  | succ fuel ih =>
    intro n ds _
    simp only [Nat.toDigitsCore]
    split
    · simp
    · exact ih _ _ (by simp)

theorem repr_digit (n : Nat) : ∀ c ∈ (Nat.repr n).data, 48 ≤ c.toNat ∧ c.toNat ≤ 57 := by
  simp only [Nat.repr, Nat.toDigits, List.asString]
  exact toDigitsCore_digit _ _ _ (by simp)

theorem repr_ne_nil (n : Nat) : (Nat.repr n).data ≠ [] := by
  simp only [Nat.repr, Nat.toDigits, List.asString, Nat.toDigitsCore]
  split
  · simp
  · exact toDigitsCore_ne_nil _ _ _ (by simp)

/-- The decimal form of an integer is not empty and holds digits and the
minus sign only. -/
theorem FormatInt_chars (i : Int) :
    (FormatInt i).data ≠ [] ∧
    ∀ c ∈ (FormatInt i).data, c.toNat = 45 ∨ (48 ≤ c.toNat ∧ c.toNat ≤ 57) := by
  unfold FormatInt
  split
  · constructor
    · simp [String.data_append]
    · intro c hc
      simp only [String.data_append, List.mem_append] at hc
      rcases hc with hc | hc
      · left
        have : c = '-' := by simpa using hc
        rw [this]; decide
      · right; exact repr_digit _ c hc
  · exact ⟨repr_ne_nil _, fun c hc => Or.inr (repr_digit _ c hc)⟩

/-- With a host, a path that starts with a decimal number is read back behind
a slash. -/
theorem requestPath_number (u : URL) (i : Int) (tail : String) (hh : u.Host ≠ "")
    (hp : u.Path = FormatInt i ++ tail) : requestPath u = "/" ++ (FormatInt i ++ tail) := by
  obtain ⟨hne, hch⟩ := FormatInt_chars i
  cases hd : (FormatInt i).data with
  | nil => exact absurd hd hne
  | cons c cs =>
    have hc := hch c (by rw [hd]; exact List.mem_cons_self c cs)
    have hslash : c ≠ '/' := by
      intro h
      rw [h] at hc
      revert hc
      decide
    unfold requestPath
    rw [if_pos hh, hp]
    simp [String.data_append, hd, hslash]

theorem join_singleton (l : List Char) (acc : String)
    (h : ∀ c ∈ l, jsonEscapeChar c = String.singleton c) :
    List.foldl (fun r s => r ++ s) acc (l.map jsonEscapeChar) = acc ++ String.mk l := by
  induction l generalizing acc with
  | nil => simp [String.ext_iff]
  | cons c cs ih =>
    simp only [List.map_cons, List.foldl_cons]
    rw [ih _ (fun x hx => h x (List.mem_cons_of_mem c hx)), h c (List.mem_cons_self c cs)]
    simp [String.ext_iff, String.singleton]

/-- A string of characters that `encoding/json` does not escape is written as
it is, between quotes. -/
theorem jsonString_plain (s : String)
    (h : ∀ c ∈ s.data, 32 ≤ c.toNat ∧ c.toNat ∉ [34, 38, 60, 62, 92, 8232, 8233]) :
    jsonString s = "\"" ++ s ++ "\"" := by
  have hs : ∀ c ∈ s.data, jsonEscapeChar c = String.singleton c := by
    intro c hc
    obtain ⟨h32, hn⟩ := h c hc
    simp only [List.mem_cons, List.mem_singleton, List.not_mem_nil, or_false, not_or] at hn
    obtain ⟨h1, h2, h3, h4, h5, h6, h7⟩ := hn
    have e8 : c.toNat ≠ 8 := by omega
    have e12 : c.toNat ≠ 12 := by omega
    have e10 : c.toNat ≠ 10 := by omega
    have e13 : c.toNat ≠ 13 := by omega
    have e9 : c.toNat ≠ 9 := by omega
    have hctl : ¬ (c.toNat < 32 ∨ c.toNat = 60 ∨ c.toNat = 62 ∨ c.toNat = 38) := by omega
    simp only [jsonEscapeChar, if_neg h1, if_neg h5, if_neg e8, if_neg e12, if_neg e10,
      if_neg e13, if_neg e9, if_neg hctl, if_neg h6, if_neg h7]
  unfold jsonString String.join
  rw [join_singleton _ _ hs]
  simp [String.ext_iff]

/-- C6, as the code has it: on a client with a host, when `http.NewRequest`
accepts the URL, `RenameFromNodeToNode` hands the transport exactly one
request.  It is a PATCH; the URL is built with the path
`<oldNodeId>/<oldName>`, and read back from its string form the request has the
path `/<oldNodeId>/<oldName>` and the query `id=true&overwrite=true`.  The body
yields the JSON object with `path` set to the JSON string of
`/<newNodeId>/<newName>` and `path_using_id` set to true, and ends cleanly;
for a new name that needs no escape this is
`{"path":"/<newNodeId>/<newName>","path_using_id":true}`. -/
theorem RenameFromNodeToNode_patch (lib : GoLib) (client : HttpClient) (oldNodeId : Int)
    (oldName : String) (newNodeId : Int) (newName : String) (w : Trace)
    (hhost : client.host ≠ "")
    (hnew : lib.newRequestErr "PATCH" (URL.mk client.scheme client.host
      (FormatInt oldNodeId ++ "/" ++ oldName) "id=true&overwrite=true") = none) :
    ∃ r, sentRequests (client.RenameFromNodeToNode lib oldNodeId oldName newNodeId newName w).2
        = sentRequests w ++ [r] ∧
      r.Method = "PATCH" ∧
      r.URL.Path = "/" ++ FormatInt oldNodeId ++ "/" ++ oldName ∧
      r.URL.RawQuery = "id=true&overwrite=true" ∧
      r.Header = [("Authorization", [client.token])] ∧
      r.Body = some (.nopCloser (Stream.mk
        ("\x7b\"path\":" ++ jsonString ("/" ++ FormatInt newNodeId ++ "/" ++ newName)
          ++ ",\"path_using_id\":true\x7d") none)) ∧
      ((∀ c ∈ newName.data, 32 ≤ c.toNat ∧ c.toNat ∉ [34, 38, 60, 62, 92, 8232, 8233]) →
        r.Body = some (.nopCloser (Stream.mk
          ("\x7b\"path\":\"/" ++ FormatInt newNodeId ++ "/" ++ newName
            ++ "\",\"path_using_id\":true\x7d") none))) := by
  have hpath : Sprintf "/%d/%s" [.int newNodeId, .str newName]
      = "/" ++ FormatInt newNodeId ++ "/" ++ newName := rfl
  have hset : Header.Set [] "Authorization" client.token = [("Authorization", [client.token])] :=
    rfl
  have hbody : NewReader (jsonMarshal
      (PatchParameters.mk ("/" ++ FormatInt newNodeId ++ "/" ++ newName) true))
      = Stream.mk ("\x7b\"path\":" ++ jsonString ("/" ++ FormatInt newNodeId ++ "/" ++ newName)
          ++ ",\"path_using_id\":true\x7d") none := by
    have hlit : ",\"path_using_id\":" ++ ("true" ++ "\x7d") = ",\"path_using_id\":true\x7d" := by
      decide
    simp only [NewReader, jsonMarshal, if_true, String.append_assoc, hlit]
  simp only [HttpClient.RenameFromNodeToNode, HttpClient.patch, HttpClient.prepPatchRequest,
    HttpClient.prepRequest, NewRequest, rename_url, hnew, hpath, hset, hbody, Option.map]
  generalize hreq : Request.mk "PATCH" (requestURL (URL.mk client.scheme client.host
    (FormatInt oldNodeId ++ "/" ++ oldName) "id=true&overwrite=true"))
    [("Authorization", [client.token])]
    (some (.nopCloser (Stream.mk
      ("\x7b\"path\":" ++ jsonString ("/" ++ FormatInt newNodeId ++ "/" ++ newName)
        ++ ",\"path_using_id\":true\x7d") none))) = req
  have hsent := doRequest_sent lib client req w
  have hcap : HttpClient.captureRequest client.log req = .ret req := by
    rw [← hreq]; exact captureRequest_replay _ _ _ _ _ rfl
  rw [hcap] at hsent
  refine ⟨req, ?_, ?_, ?_, ?_, ?_, ?_, ?_⟩
  · rcases hd : client.doRequest lib req w with ⟨x, w2⟩
    rw [hd] at hsent
    cases x <;> simpa [sentRequests_closeBody] using hsent
  · rw [← hreq]
  · rw [← hreq]
    have h := requestPath_number (URL.mk client.scheme client.host
      (FormatInt oldNodeId ++ "/" ++ oldName) "id=true&overwrite=true") oldNodeId
      ("/" ++ oldName) hhost (by simp [String.append_assoc])
    show requestPath _ = _
    rw [h]
    simp only [String.append_assoc]
  · rw [← hreq]; rfl
  · rw [← hreq]
  · rw [← hreq]
  · intro hplain
    rw [← hreq]
    have hall : ∀ c ∈ ("/" ++ FormatInt newNodeId ++ "/" ++ newName).data,
        32 ≤ c.toNat ∧ c.toNat ∉ [34, 38, 60, 62, 92, 8232, 8233] := by
      intro c hc
      simp only [String.data_append, List.mem_append] at hc
      have hs : ∀ x ∈ "/".data, 32 ≤ x.toNat ∧ x.toNat ∉ [34, 38, 60, 62, 92, 8232, 8233] := by
        decide
      rcases hc with ((hc | hc) | hc) | hc
      · exact hs c hc
      · rcases (FormatInt_chars newNodeId).2 c hc with h45 | ⟨h48, h57⟩
        · rw [h45]; decide
        · refine ⟨by omega, ?_⟩
          simp only [List.mem_cons, List.mem_singleton, List.not_mem_nil, or_false, not_or]
          omega
      · exact hs c hc
      · exact hplain c hc
    rw [jsonString_plain _ hall]
    simp [String.ext_iff, String.data_append]

/-- Witness of C6 as amended: renaming (7, "x") to (9, "y") on the client of
`http://example.org` sends one PATCH with the path `/7/x`, the query
`id=true&overwrite=true` and the body `{"path":"/9/y","path_using_id":true}`. -/
theorem RenameFromNodeToNode_patch_witness :
    ∃ r, sentRequests ((sampleClient false (fun _ => (none, some (.foreign "offline")))).RenameFromNodeToNode
        sampleLib 7 "x" 9 "y" []).2 = [r] ∧
      r.Method = "PATCH" ∧ r.URL.Path = "/7/x" ∧ r.URL.RawQuery = "id=true&overwrite=true" ∧
      r.Body = some (.nopCloser
        (Stream.mk "\x7b\"path\":\"/9/y\",\"path_using_id\":true\x7d" none)) := by
  obtain ⟨r, h1, h2, h3, h4, _, _, h7⟩ := RenameFromNodeToNode_patch sampleLib
    (sampleClient false (fun _ => (none, some (.foreign "offline")))) 7 "x" 9 "y" []
    (by decide) rfl
  refine ⟨r, by simpa [sentRequests] using h1, h2, ?_, h4, ?_⟩
  · rw [h3]; decide
  · rw [h7 (by decide)]; decide

/-- Counterexample to C6 as stated: renaming (7, "x") to (9, "y") on the client
of `http://example.org` hands the transport one request, and its URL path is
`/7/x`, not `7/x`: the string form of the URL, which `http.NewRequest` reads,
has a slash between host and path. -/
theorem RenameFromNodeToNode_path_slash :
    sentRequests ((sampleClient false (answering 200 [("Node-Id", ["7"])]
        (Stream.mk "" none))).RenameFromNodeToNode sampleLib 7 "x" 9 "y" []).2
      = [Request.mk "PATCH" (URL.mk "http" "example.org" "/7/x" "id=true&overwrite=true")
          [("Authorization", ["secret"])]
          (some (.nopCloser
            (Stream.mk "\x7b\"path\":\"/9/y\",\"path_using_id\":true\x7d" none)))] ∧
    (sentRequests ((sampleClient false (answering 200 [("Node-Id", ["7"])]
        (Stream.mk "" none))).RenameFromNodeToNode sampleLib 7 "x" 9 "y" []).2).map
          (fun r => r.URL.Path) ≠ [FormatInt 7 ++ "/" ++ "x"] := by
  refine ⟨by decide, by decide⟩

/-! ## Response bodies of failed exchanges (C8) -/

/-- On a response that is not 2xx `doRequest` closes nothing, on a silent and
on a logging client alike. -/
theorem doRequest_nonSuccess_closes_nothing (lib : GoLib) (client : HttpClient) (req r : Request)
    (w : Trace) (resp : Response)
    (hq : HttpClient.captureRequest client.log req = .ret r)
    (hdo : client.client r = (some resp, none))
    (hs : statusGood resp.StatusCode = false) :
    closedBodies (client.doRequest lib req w).2 = closedBodies w := by
  cases hc : HttpClient.captureResponse client.log resp with
  | panic => simp [HttpClient.doRequest, hq, hdo, hc, closedBodies_append, closedBodies]
  | ret resp2 =>
    have hst := (captureResponse_ret _ _ _ hc).1
    have hs2 : statusGood resp2.StatusCode = false := by rw [hst]; exact hs
    cases hp : ParseErrorResponse lib resp2 <;>
      simp [HttpClient.doRequest, hq, hdo, hc, hs2, hp, closedBodies_append, closedBodies]

/-- C8 fails on the code: with a transport that answers 404, every operation
returns its typed error `ErrDidNotSucceed` without a `Close` of the response
body: the trace holds the request sent and nothing else, on a silent client
and on a logging one.  On the sibling path, a 200 without `Node-Id`, the body
is closed. -/
theorem nonSuccess_body_not_closed :
    (closedBodies ((sampleClient false (answering 404 [] (Stream.mk "gone" none))).ResolveNode
        sampleLib 7 []).2 = [] ∧
      ((sampleClient false (answering 404 [] (Stream.mk "gone" none))).ResolveNode
        sampleLib 7 []).1 = .ret (none, some .ErrDidNotSucceed)) ∧
    (closedBodies ((sampleClient false (answering 404 [] (Stream.mk "gone" none))).ReadNode
        sampleLib 7 0 (-1) []).2 = [] ∧
      ((sampleClient false (answering 404 [] (Stream.mk "gone" none))).ReadNode
        sampleLib 7 0 (-1) []).1
        = .ret { attr := none, readCloser := none, err := some .ErrDidNotSucceed }) ∧
    (closedBodies ((sampleClient false (answering 404 [] (Stream.mk "gone" none))).CreatePath
        sampleLib "a/b" (some (Stream.mk "hello" none)) []).2 = [] ∧
      ((sampleClient false (answering 404 [] (Stream.mk "gone" none))).CreatePath
        sampleLib "a/b" (some (Stream.mk "hello" none)) []).1
        = .ret (none, some .ErrDidNotSucceed)) ∧
    (closedBodies ((sampleClient false (answering 404 [] (Stream.mk "gone" none))).DeleteFromNode
        sampleLib 7 "x" []).2 = [] ∧
      ((sampleClient false (answering 404 [] (Stream.mk "gone" none))).DeleteFromNode
        sampleLib 7 "x" []).1 = .ret (some .ErrDidNotSucceed)) ∧
    (closedBodies
        ((sampleClient false (answering 404 [] (Stream.mk "gone" none))).RenameFromNodeToNode
          sampleLib 7 "x" 9 "y" []).2 = [] ∧
      ((sampleClient false (answering 404 [] (Stream.mk "gone" none))).RenameFromNodeToNode
        sampleLib 7 "x" 9 "y" []).1 = .ret (some .ErrDidNotSucceed)) ∧
    (closedBodies ((sampleClient true (answering 404 [] (Stream.mk "gone" none))).ResolveNode
        sampleLib 7 []).2 = [] ∧
      ((sampleClient true (answering 404 [] (Stream.mk "gone" none))).ResolveNode
        sampleLib 7 []).1 = .ret (none, some .ErrDidNotSucceed)) ∧
    closedBodies ((sampleClient false (answering 200 [] (Stream.mk "gone" none))).ResolveNode
        sampleLib 7 []).2 = [Stream.mk "gone" none] := by
  refine ⟨⟨by decide, by decide⟩, ⟨by decide, by decide⟩, ⟨by decide, by decide⟩,
    ⟨by decide, by decide⟩, ⟨by decide, by decide⟩, ⟨by decide, by decide⟩, by decide⟩

/-! ## Logging (C9) -/

/-- C9, as the code has it: take a request that carries a body, and a
transport that answers the buffered copy of the request as it answers the
request itself, with an error or with a response that carries a body.  Then
`doRequest` returns on the logging client what it returns on the silent one:
the same attributes and the same error, and on success a body that yields the
same bytes.  The body of the logging client is the replay of what was read:
it ends cleanly, whatever error ended the body of the transport. -/
theorem doRequest_logging (lib : GoLib) (client : HttpClient) (req : Request) (w : Trace)
    (b : ReadCloser)
    (hb : req.Body = some b)
    (ht : client.client { req with Body := some (.nopCloser (NewReader b.stream.data)) }
      = client.client req)
    (hwf : ∀ resp, client.client req = (resp, none) →
      ∃ r rb, resp = some r ∧ r.Body = some rb) :
    ∃ x y,
      (HttpClient.doRequest lib { client with log := false } req w).1 = .ret x ∧
      (HttpClient.doRequest lib { client with log := true } req w).1 = .ret y ∧
      y.attr = x.attr ∧ y.err = x.err ∧
      y.readCloser.map (fun r => r.stream.data) = x.readCloser.map (fun r => r.stream.data) ∧
      (∀ r, y.readCloser = some r → r.stream.err = none) := by
  have hq0 : HttpClient.captureRequest false req = .ret req := by
    simp [HttpClient.captureRequest]
  have hq1 : HttpClient.captureRequest true req
      = .ret { req with Body := some (.nopCloser (NewReader b.stream.data)) } := by
    simp [HttpClient.captureRequest, hb, ReadAll]
  rcases hd : client.client req with ⟨resp, err⟩
  cases err with
  | some e =>
    refine ⟨⟨none, none, some e⟩, ⟨none, none, some e⟩, ?_, ?_, rfl, rfl, rfl, ?_⟩
    · simp [HttpClient.doRequest, hq0, hd]
    · simp [HttpClient.doRequest, hq1, ht, hd]
    · intro r hr; cases hr
  | none =>
    obtain ⟨r, rb, hresp, hrb⟩ := hwf resp hd
    subst hresp
    have hr0 : HttpClient.captureResponse false r = .ret r := by
      simp [HttpClient.captureResponse]
    have hr1 : HttpClient.captureResponse true r
        = .ret { r with Body := some (.nopCloser (NewReader rb.stream.data)) } := by
      simp [HttpClient.captureResponse, hrb, ReadAll]
    have hpa : parseNodeAttributes { r with Body := some (.nopCloser (NewReader rb.stream.data)) }
        = parseNodeAttributes r := parseNodeAttributes_header _ _ rfl
    have hpe : ParseErrorResponse lib
        { r with Body := some (.nopCloser (NewReader rb.stream.data)) }
        = ParseErrorResponse lib r := by
      simp [ParseErrorResponse, hrb, ReadAll, ReadCloser.stream, NewReader]
    cases hg : statusGood r.StatusCode with
    | false =>
      have hpr : ∃ e, ParseErrorResponse lib r = .ret e := by
        simp only [ParseErrorResponse, hrb, ReadAll]
        split_ifs <;> exact ⟨_, rfl⟩
      obtain ⟨e, he⟩ := hpr
      refine ⟨⟨none, none, some e⟩, ⟨none, none, some e⟩, ?_, ?_, rfl, rfl, rfl, ?_⟩
      · simp [HttpClient.doRequest, hq0, hd, hr0, hg, he]
      · simp [HttpClient.doRequest, hq1, ht, hd, hr1, hg, hpe, he]
      · intro r hr; cases hr
    | true =>
      rcases hp : parseNodeAttributes r with ⟨attr, perr⟩
      cases perr with
      | some e =>
        refine ⟨⟨none, none, some e⟩, ⟨none, none, some e⟩, ?_, ?_, rfl, rfl, rfl, ?_⟩
        · simp [HttpClient.doRequest, hq0, hd, hr0, hg, hp]
        · simp [HttpClient.doRequest, hq1, ht, hd, hr1, hg, hpa, hp]
        · intro r hr; cases hr
      | none =>
        refine ⟨⟨attr, some rb, none⟩,
          ⟨attr, some (.nopCloser (NewReader rb.stream.data)), none⟩, ?_, ?_, rfl, rfl, rfl, ?_⟩
        · simp [HttpClient.doRequest, hq0, hd, hr0, hg, hp, hrb]
        · simp [HttpClient.doRequest, hq1, ht, hd, hr1, hg, hpa, hp]
        · intro r hr
          cases hr
          rfl

/-- Witness of C9 as amended: a 200 for node 5 whose body breaks off after
`ab`.  Both clients return the attributes of node 5 and no error, with a body
that yields `ab`. -/
theorem doRequest_logging_witness :
    ∃ x y,
      (HttpClient.doRequest sampleLib (sampleClient false (answering 200 [("Node-Id", ["5"])]
        (Stream.mk "ab" (some (.foreign "connection reset"))))) sampleRequest []).1 = .ret x ∧
      (HttpClient.doRequest sampleLib (sampleClient true (answering 200 [("Node-Id", ["5"])]
        (Stream.mk "ab" (some (.foreign "connection reset"))))) sampleRequest []).1 = .ret y ∧
      y.attr = x.attr ∧ y.err = x.err ∧
      y.readCloser.map (fun r => r.stream.data) = x.readCloser.map (fun r => r.stream.data) ∧
      (∀ r, y.readCloser = some r → r.stream.err = none) :=
  doRequest_logging sampleLib (sampleClient false (answering 200 [("Node-Id", ["5"])]
    (Stream.mk "ab" (some (.foreign "connection reset"))))) sampleRequest []
    (.nopCloser (Stream.mk "" none)) rfl rfl
    (fun _ h => ⟨_, _, (Prod.mk.inj h).1.symm, rfl⟩)

/-- Counterexample to C9 as stated: the transport answers 200 for node 5 with
a body that yields `ab` and then fails.  The silent client returns that body,
read error included; the logging client returns a body that yields `ab` and
then ends cleanly.  And for a request with no body the silent client returns
the attributes, while the logging client panics reading the nil body. -/
theorem doRequest_logging_differs :
    (HttpClient.doRequest sampleLib (sampleClient false (answering 200 [("Node-Id", ["5"])]
        (Stream.mk "ab" (some (.foreign "connection reset"))))) sampleRequest []).1
      = .ret { attr := some { Id := 5, NodeType := 0, Size := 0 }
               readCloser := some (.conn (Stream.mk "ab" (some (.foreign "connection reset"))))
               err := none } ∧
    (HttpClient.doRequest sampleLib (sampleClient true (answering 200 [("Node-Id", ["5"])]
        (Stream.mk "ab" (some (.foreign "connection reset"))))) sampleRequest []).1
      = .ret { attr := some { Id := 5, NodeType := 0, Size := 0 }
               readCloser := some (.nopCloser (Stream.mk "ab" none))
               err := none } ∧
    (HttpClient.doRequest sampleLib (sampleClient false (answering 200 [("Node-Id", ["5"])]
        (Stream.mk "ab" none))) { sampleRequest with Body := none } []).1
      = .ret { attr := some { Id := 5, NodeType := 0, Size := 0 }
               readCloser := some (.conn (Stream.mk "ab" none))
               err := none } ∧
    (HttpClient.doRequest sampleLib (sampleClient true (answering 200 [("Node-Id", ["5"])]
        (Stream.mk "ab" none))) { sampleRequest with Body := none } []).1 = .panic := by
  refine ⟨by decide, by decide, by decide, by decide⟩

end Oxygen
